import Mathlib

/-
  Verification of the geo-file parsing and coordinate-extraction layer of
  src/stream3.py (image-with-location).

  Modeling conventions:
  * Python floats are modeled as rationals: the program only parses decimal
    numerals out of text and passes the values through unchanged, so no
    floating-point rounding is observable at the level of the properties
    checked here.  (The inf/nan spellings accepted by float() are outside
    the model; every concrete input used below is a plain numeral.)
  * The dictionaries built by the program have fixed key sets, so they are
    modeled as structures; their JSON image is the PyVal type below, and
    json.dumps is modeled as the PyVal structure handed to it.
  * Fallible Python code is modeled with Except PyErr, PyErr naming the
    exception class the interpreter would raise.
  * XML element trees (xml.etree.ElementTree) are modeled by the Xml type
    with tag, text and children; the namespace prefix is dropped since every
    element queried by the code lives in the kml namespace.
-/

/-- Python exception classes raised by the code paths modeled here. -/
inductive PyErr where
  | valueError
  | attributeError
  | typeError
  | keyError
  | indexError
  deriving DecidableEq, Repr

/-- Python str.strip with no arguments: drop leading and trailing whitespace. -/
def pyStrip (s : String) : String :=
  ⟨((s.toList.dropWhile Char.isWhitespace).reverse.dropWhile
      Char.isWhitespace).reverse⟩

/-- Split a character list at every character satisfying a predicate, keeping
    empty pieces. -/
def splitOnPred (p : Char → Bool) : List Char → List (List Char)
  | [] => [[]]
  | c :: cs =>
    match splitOnPred p cs with
    | [] => if p c then [[], [c]] else [[c]]
    | g :: gs => if p c then [] :: g :: gs else (c :: g) :: gs

/-- Python str.split with a one-character separator: split at every
    occurrence, keeping empty pieces. -/
def splitOnChar (sep : Char) (cs : List Char) : List (List Char) :=
  splitOnPred (fun c => c == sep) cs

/-- Python str.split(","): split at every comma, keeping empty pieces. -/
def pySplitComma (s : String) : List String :=
  (splitOnChar ',' s.toList).map fun g => ⟨g⟩

/-- Python str.split with no arguments: split on whitespace runs, dropping
    empty pieces. -/
def pySplitWs (s : String) : List String :=
  ((splitOnPred Char.isWhitespace s.toList).filter
      (fun g => !g.isEmpty)).map fun g => ⟨g⟩

/-- os.path.basename on a posix path: the component after the last slash. -/
def basename (s : String) : String :=
  ⟨(splitOnChar '/' s.toList).getLastD s.toList⟩

/-- Consume leading decimal digits of a character list: value, digit count, rest. -/
def takeDigits : List Char → Nat × Nat × List Char
  | [] => (0, 0, [])
  | c :: cs =>
    if c.isDigit then
      match takeDigits cs with
      | (v, n, rest) => ((c.toNat - 48) * 10 ^ n + v, n + 1, rest)
    else (0, 0, c :: cs)

/-- Mantissa of a Python float literal: digits with an optional decimal point,
    at least one digit overall.  Returns the value and the remaining input. -/
def parseMantissa (cs : List Char) : Option (ℚ × List Char) :=
  match takeDigits cs with
  | (ip, icnt, rest) =>
    match rest with
    | '.' :: rest2 =>
      match takeDigits rest2 with
      | (fp, fcnt, rest3) =>
        if icnt == 0 && fcnt == 0 then Option.none
        else some ((ip : ℚ) + (fp : ℚ) / (10 : ℚ) ^ fcnt, rest3)
    | _ => if icnt == 0 then Option.none else some ((ip : ℚ), rest)

/-- Exponent tail of a Python float literal: optional sign, then digits running
    to the end of the input. -/
def parseExpTail (cs : List Char) : Option ℚ :=
  let signed : Bool × List Char :=
    match cs with
    | '+' :: r => (false, r)
    | '-' :: r => (true, r)
    | r => (false, r)
  match takeDigits signed.2 with
  | (ev, ecnt, rest) =>
    if ecnt == 0 || !rest.isEmpty then Option.none
    else some (if signed.1 then ((10 : ℚ) ^ ev)⁻¹ else (10 : ℚ) ^ ev)

/-- Python float(string) on finite decimal numerals: optional surrounding
    whitespace, optional sign, digits with an optional fraction, optional
    exponent.  Returns none exactly when the interpreter raises ValueError. -/
def pyFloat? (s : String) : Option ℚ :=
  let cs := (pyStrip s).toList
  let signed : ℚ × List Char :=
    match cs with
    | '+' :: r => (1, r)
    | '-' :: r => (-1, r)
    | r => (1, r)
  match parseMantissa signed.2 with
  | Option.none => Option.none
  | some (m, rest) =>
    match rest with
    | [] => some (signed.1 * m)
    | 'e' :: r =>
      match parseExpTail r with
      | some e => some (signed.1 * m * e)
      | Option.none => Option.none
    | 'E' :: r =>
      match parseExpTail r with
      | some e => some (signed.1 * m * e)
      | Option.none => Option.none
    | _ => Option.none

/-- A GPX track point or waypoint as exposed by gpxpy: optional name,
    latitude and longitude attributes. -/
structure GpxPoint where
  name : Option String
  lat : ℚ
  lon : ℚ
  deriving DecidableEq, Repr

/-- A GPX track segment. -/
structure GpxSegment where
  points : List GpxPoint
  deriving DecidableEq, Repr

/-- A GPX track. -/
structure GpxTrack where
  segments : List GpxSegment
  deriving DecidableEq, Repr

/-- A parsed GPX document: tracks plus standalone waypoints. -/
structure Gpx where
  tracks : List GpxTrack
  waypoints : List GpxPoint
  deriving DecidableEq, Repr

/-- The record parse_gpx appends per point: name, lat, lon. -/
structure GeoPoint where
  name : String
  lat : ℚ
  lon : ℚ
  deriving DecidableEq, Repr

/-- The record built from one gpxpy point: name is the point's name when it is
    truthy (a nonempty string), otherwise the empty string. -/
def toGeo (p : GpxPoint) : GeoPoint :=
  ⟨match p.name with
    | some s => if s == "" then "" else s
    | Option.none => "",
   p.lat, p.lon⟩

/-- parse_gpx from src/stream3.py: walk tracks, segments and points appending a
    record per track point, then append a record per waypoint. -/
def parse_gpx (g : Gpx) : List GeoPoint :=
  let pts :=
    g.tracks.foldl
      (fun acc t =>
        t.segments.foldl
          (fun acc2 s => s.points.foldl (fun acc3 p => acc3 ++ [toGeo p]) acc2)
          acc)
      []
  g.waypoints.foldl (fun acc p => acc ++ [toGeo p]) pts

/-- All points of a segment list in traversal order. -/
def segPoints : List GpxSegment → List GpxPoint
  | [] => []
  | s :: ss => s.points ++ segPoints ss

/-- All track points of a track list in track, segment, point traversal order. -/
def trackPoints : List GpxTrack → List GpxPoint
  | [] => []
  | t :: ts => segPoints t.segments ++ trackPoints ts

theorem foldl_append_map {α β : Type} (f : α → β) :
    ∀ (l : List α) (init : List β),
      l.foldl (fun acc p => acc ++ [f p]) init = init ++ l.map f := by
  intro l
  induction l with
  | nil => intro init; simp
  | cons x xs ih => intro init; simp [ih]

theorem segfold_eq (ss : List GpxSegment) :
    ∀ (init : List GeoPoint),
      ss.foldl
        (fun acc2 s => s.points.foldl (fun acc3 p => acc3 ++ [toGeo p]) acc2)
        init
      = init ++ (segPoints ss).map toGeo := by
  induction ss with
  | nil => intro init; simp [segPoints]
  | cons s ss ih =>
    intro init
    rw [List.foldl_cons, ih]
    simp [segPoints, foldl_append_map]

theorem trackfold_eq (ts : List GpxTrack) :
    ∀ (init : List GeoPoint),
      ts.foldl
        (fun acc t =>
          t.segments.foldl
            (fun acc2 s => s.points.foldl (fun acc3 p => acc3 ++ [toGeo p]) acc2)
            acc)
        init
      = init ++ (trackPoints ts).map toGeo := by
  induction ts with
  | nil => intro init; simp [trackPoints]
  | cons t ts ih =>
    intro init
    rw [List.foldl_cons, ih]
    simp [trackPoints, segfold_eq]

/-- C3: for every GPX document, parse_gpx returns the track points (in track,
    segment, point traversal order) followed by the waypoints (in document
    order), hence exactly N + M records for N track points and M waypoints,
    order preserved within each group. -/
theorem c3_parse_gpx_order_and_count (g : Gpx) :
    parse_gpx g = (trackPoints g.tracks).map toGeo ++ g.waypoints.map toGeo
      ∧ (parse_gpx g).length
          = (trackPoints g.tracks).length + g.waypoints.length := by
  have h : parse_gpx g
      = (trackPoints g.tracks).map toGeo ++ g.waypoints.map toGeo := by
    unfold parse_gpx
    rw [trackfold_eq, foldl_append_map]
    simp
  exact ⟨h, by simp [h]⟩

/-- An XML element as exposed by xml.etree.ElementTree: tag, optional text
    node, child elements.  Namespace prefixes are dropped: every element the
    code queries is in the kml 2.2 namespace. -/
inductive Xml where
  | mk (tag : String) (text : Option String) (children : List Xml)
  deriving Repr

/-- Tag of an element. -/
def Xml.tag : Xml → String
  | .mk t _ _ => t

/-- Text of an element; Python None when the element has no text node. -/
def Xml.text : Xml → Option String
  | .mk _ x _ => x

/-- Child elements of an element. -/
def Xml.children : Xml → List Xml
  | .mk _ _ cs => cs

mutual
/-- An element followed by all its descendants, preorder (document order). -/
def descSelf : Xml → List Xml
  | .mk t x cs => .mk t x cs :: descList cs
/-- Descendants-with-self of each element of a list, concatenated. -/
def descList : List Xml → List Xml
  | [] => []
  | y :: ys => descSelf y ++ descList ys
end

/-- ElementTree findall with a ".//tag" path: every descendant carrying the
    tag, in document order. -/
def findDesc (x : Xml) (t : String) : List Xml :=
  (descList x.children).filter (fun e => e.tag == t)

/-- ElementTree find with a single-step "tag" path: the first direct child
    carrying the tag. -/
def findChild (x : Xml) (t : String) : Option Xml :=
  (x.children.filter (fun e => e.tag == t)).head?

/-- Children with a given tag of each element of a list, concatenated. -/
def childrenTagged (t : String) : List Xml → List Xml
  | [] => []
  | e :: rest => e.children.filter (fun c => c.tag == t) ++ childrenTagged t rest

/-- ElementTree findall with a ".//a/b" path. -/
def findDesc2 (x : Xml) (a b : String) : List Xml :=
  childrenTagged b (findDesc x a)

/-- ElementTree findall with a ".//a/b/c/d" path. -/
def findDesc4 (x : Xml) (a b c d : String) : List Xml :=
  childrenTagged d (childrenTagged c (childrenTagged b (findDesc x a)))

/-- The node read by placemark.find(".//kml:Point/kml:coordinates"): only the
    first match is used. -/
def pointNode (pm : Xml) : Option Xml :=
  (findDesc2 pm "Point" "coordinates").head?

/-- The nodes read by placemark.findall(".//kml:LineString/kml:coordinates"). -/
def lineNodes (pm : Xml) : List Xml :=
  findDesc2 pm "LineString" "coordinates"

/-- The nodes read by the Polygon outer-boundary findall. -/
def polyNodes (pm : Xml) : List Xml :=
  findDesc4 pm "Polygon" "outerBoundaryIs" "LinearRing" "coordinates"

/-- A GeoJSON geometry as built by parse_kml. -/
inductive Geometry where
  | point (lon lat : ℚ)
  | lineString (coords : List (ℚ × ℚ))
  | polygon (outer : List (ℚ × ℚ))
  deriving DecidableEq, Repr

/-- A GeoJSON Feature dict as built by parse_kml: geometry plus the
    properties name, which is Python None when the Placemark's name element
    is present but empty. -/
structure Feature where
  geometry : Geometry
  name : Option String
  deriving DecidableEq, Repr

/-- Apply float to every comma token, as map(float, ...) consumed in full by a
    starred unpacking target. -/
def mapFloat : List String → Option (List ℚ)
  | [] => some []
  | t :: ts =>
    match pyFloat? t, mapFloat ts with
    | some v, some vs => some (v :: vs)
    | _, _ => Option.none

/-- The statement lon, lat, star-rest = map(float, c.split(",")): every comma
    token must parse as a float and at least two values must be produced,
    otherwise ValueError. -/
def parseTuple (c : String) : Except PyErr (ℚ × ℚ) :=
  match mapFloat (pySplitComma c) with
  | Option.none => .error .valueError
  | some (a :: b :: _) => .ok (a, b)
  | some _ => .error .valueError

/-- Point branch: pt.text.strip().split(",") then the tuple unpacking; a None
    text raises AttributeError at the strip call. -/
def parsePointCoords (txt : Option String) : Except PyErr (ℚ × ℚ) :=
  match txt with
  | Option.none => .error .attributeError
  | some t => parseTuple (pyStrip t)

/-- Tuple-by-tuple parse of a whitespace-split multi-point coordinates node. -/
def parseTuples : List String → Except PyErr (List (ℚ × ℚ))
  | [] => .ok []
  | c :: cs =>
    match parseTuple c with
    | .error e => .error e
    | .ok p =>
      match parseTuples cs with
      | .error e => .error e
      | .ok ps => .ok (p :: ps)

/-- LineString and Polygon branches: text.strip().split() then the per-tuple
    parse; a None text raises AttributeError at the strip call. -/
def parseLineCoords (txt : Option String) : Except PyErr (List (ℚ × ℚ)) :=
  match txt with
  | Option.none => .error .attributeError
  | some t => parseTuples (pySplitWs (pyStrip t))

/-- The expression name_elem.text if name_elem is not None else "": the text
    itself may be Python None when the name element is present but empty. -/
def placemarkName (pm : Xml) : Option String :=
  match findChild pm "name" with
  | some el => el.text
  | Option.none => some ""

/-- Point branch of the Placemark loop: at most the first matching coordinates
    node is used, producing at most one Feature. -/
def pointPart (pm : Xml) (name : Option String) : Except PyErr (List Feature) :=
  match pointNode pm with
  | Option.none => .ok []
  | some el =>
    match parsePointCoords el.text with
    | .error e => .error e
    | .ok (lon, lat) => .ok [⟨.point lon lat, name⟩]

/-- LineString and Polygon branches of the Placemark loop: one Feature per
    coordinates node whose parsed coordinate list is nonempty. -/
def collectCoords (mk : List (ℚ × ℚ) → Geometry) (name : Option String) :
    List Xml → Except PyErr (List Feature)
  | [] => .ok []
  | el :: rest =>
    match parseLineCoords el.text with
    | .error e => .error e
    | .ok coords =>
      match collectCoords mk name rest with
      | .error e => .error e
      | .ok fs =>
        .ok (if coords.isEmpty then fs else ⟨mk coords, name⟩ :: fs)

/-- Body of the Placemark loop of parse_kml: the Point branch, then the
    LineString branch, then the Polygon branch. -/
def processPlacemark (pm : Xml) : Except PyErr (List Feature) :=
  match pointPart pm (placemarkName pm) with
  | .error e => .error e
  | .ok ptFs =>
    match collectCoords Geometry.lineString (placemarkName pm) (lineNodes pm) with
    | .error e => .error e
    | .ok lsFs =>
      match collectCoords Geometry.polygon (placemarkName pm) (polyNodes pm) with
      | .error e => .error e
      | .ok pgFs => .ok (ptFs ++ lsFs ++ pgFs)

/-- The Placemark loop of parse_kml over the document-order Placemark list. -/
def processPlacemarks : List Xml → Except PyErr (List Feature)
  | [] => .ok []
  | pm :: rest =>
    match processPlacemark pm with
    | .error e => .error e
    | .ok fs =>
      match processPlacemarks rest with
      | .error e => .error e
      | .ok more => .ok (fs ++ more)

/-- parse_kml from src/stream3.py, over the parsed element tree of the
    document (root.findall(".//kml:Placemark") then the Placemark loop). -/
def parse_kml (root : Xml) : Except PyErr (List Feature) :=
  processPlacemarks (findDesc root "Placemark")

/-- A Python value as handed to json.dumps: string, number, None, list or
    dict with insertion-ordered keys. -/
inductive PyVal where
  | str (s : String)
  | num (q : ℚ)
  | null
  | arr (xs : List PyVal)
  | dict (kvs : List (String × PyVal))
  deriving Repr

/-- Lookup in an ordered key-value list. -/
def lookupKvs : List (String × PyVal) → String → Option PyVal
  | [], _ => Option.none
  | (k', v) :: rest, k => if k' == k then some v else lookupKvs rest k

/-- Subscription of a dict value by key. -/
def PyVal.lookup : PyVal → String → Option PyVal
  | .dict kvs, k => lookupKvs kvs k
  | _, _ => Option.none

/-- A coordinate pair [lon, lat] as a JSON array. -/
def pairVal (p : ℚ × ℚ) : PyVal := .arr [.num p.1, .num p.2]

/-- The geometry dict of a Feature exactly as parse_kml constructs it. -/
def Geometry.toVal : Geometry → PyVal
  | .point lon lat =>
    .dict [("type", .str "Point"), ("coordinates", .arr [.num lon, .num lat])]
  | .lineString cs =>
    .dict [("type", .str "LineString"), ("coordinates", .arr (cs.map pairVal))]
  | .polygon cs =>
    .dict [("type", .str "Polygon"), ("coordinates", .arr [.arr (cs.map pairVal)])]

/-- The JSON image of a properties name: a string, or None. -/
def nameVal : Option String → PyVal
  | some s => .str s
  | Option.none => .null

/-- The Feature dict exactly as parse_kml constructs it. -/
def Feature.toVal (f : Feature) : PyVal :=
  .dict [("type", .str "Feature"), ("geometry", f.geometry.toVal),
    ("properties", .dict [("name", nameVal f.name)])]

/-- Python dict get on an insertion-ordered association list: a later insert
    of the same key overwrites an earlier one, so the last binding wins. -/
def dictGet {α : Type} : List (String × α) → String → Option α
  | [], _ => Option.none
  | (k', v) :: rest, k =>
    match dictGet rest k with
    | some v' => some v'
    | Option.none => if k' == k then some v else Option.none

/-- Lines 124-125 of src/stream3.py for a GPX source: every record carries a
    name key, so the comprehension filter admits every record, and the key is
    basename of the name (the empty string giving the key ""). -/
def geoDictGpx : List GeoPoint → List (String × GeoPoint)
  | [] => []
  | p :: ps => (basename p.name, p) :: geoDictGpx ps

/-- Lines 124-125 of src/stream3.py for a KML source: every Feature carries
    properties["name"], so the comprehension filter admits every record; a
    None name raises TypeError inside os.path.basename. -/
def geoDictKml : List Feature → Except PyErr (List (String × Feature))
  | [] => .ok []
  | f :: fs =>
    match f.name with
    | Option.none => .error .typeError
    | some n =>
      match geoDictKml fs with
      | .error e => .error e
      | .ok d => .ok ((basename n, f) :: d)

/-- Length of the top-level coordinates list of a geometry, as indexed by
    coords[1] in module 1. -/
def topCoordsLen : Geometry → Nat
  | .point _ _ => 2
  | .lineString cs => cs.length
  | .polygon _ => 1

/-- Module 1 handling of a matched KML Feature (lines 137-166): reads
    match["geometry"], then coords, then lat, lon = coords[1], coords[0]
    (coords[1] raising IndexError when the list has fewer than two entries),
    and finally offers json.dumps(match) - the Feature itself - for download. -/
def module1DownloadKml (f : Feature) : Except PyErr PyVal :=
  if topCoordsLen f.geometry < 2 then .error .indexError
  else .ok f.toVal

/-- Subscription match["geometry"] on the record parse_gpx builds, whose only
    keys are name, lat and lon. -/
def GeoPoint.getItem (p : GeoPoint) (k : String) : Except PyErr PyVal :=
  if k == "name" then .ok (.str p.name)
  else if k == "lat" then .ok (.num p.lat)
  else if k == "lon" then .ok (.num p.lon)
  else .error .keyError

/-- Module 1 handling of a matched GPX record: the first step,
    geom = match["geometry"], raises KeyError because parse_gpx records have
    no geometry key; were it reached, the download would be json.dumps(match). -/
def module1DownloadGpx (p : GeoPoint) : Except PyErr PyVal :=
  match p.getItem "geometry" with
  | .error e => .error e
  | .ok _geom =>
    .ok (.dict [("name", .str p.name), ("lat", .num p.lat), ("lon", .num p.lon)])

/-- The Feature dict module 2 builds from one parse_gpx record: a Point with
    coordinates [lon, lat]. -/
def gpxFeatureVal (p : GeoPoint) : PyVal :=
  .dict [("type", .str "Feature"),
    ("geometry",
      .dict [("type", .str "Point"), ("coordinates", .arr [.num p.lon, .num p.lat])]),
    ("properties", .dict [("name", .str p.name)])]

/-- The FeatureCollection dict of module 2. -/
def featureCollectionVal (fs : List PyVal) : PyVal :=
  .dict [("type", .str "FeatureCollection"), ("features", .arr fs)]

/-- Module 2 bulk conversion of a GPX document; none models the warning path
    where no GeoJSON is produced because no points were found. -/
def bulkConvertGpx (g : Gpx) : Option PyVal :=
  let feats := (parse_gpx g).map gpxFeatureVal
  if feats.isEmpty then Option.none else some (featureCollectionVal feats)

/-- Module 2 bulk conversion of a KML document. -/
def bulkConvertKml (root : Xml) : Except PyErr (Option PyVal) :=
  match parse_kml root with
  | .error e => .error e
  | .ok fs =>
    if fs.isEmpty then .ok Option.none
    else .ok (some (featureCollectionVal (fs.map Feature.toVal)))

/-- Whether a Feature carries a Point geometry. -/
def isPointF (f : Feature) : Bool :=
  match f.geometry with
  | .point _ _ => true
  | _ => false

/-- Whether a Feature carries a LineString geometry. -/
def isLineF (f : Feature) : Bool :=
  match f.geometry with
  | .lineString _ => true
  | _ => false

/-- Whether a Feature carries a Polygon geometry. -/
def isPolyF (f : Feature) : Bool :=
  match f.geometry with
  | .polygon _ => true
  | _ => false

/-- Whether a LineString or Polygon coordinates node parses to at least one
    coordinate pair, i.e. passes the "if coords:" guard. -/
def nodeYields (el : Xml) : Bool :=
  match parseLineCoords el.text with
  | .ok (_ :: _) => true
  | _ => false

/-- The coordinate pairs of a geometry, in emission order. -/
def geomPairs : Geometry → List (ℚ × ℚ)
  | .point lon lat => [(lon, lat)]
  | .lineString cs => cs
  | .polygon cs => cs

/-- The comma-separated tuple strings of a multi-point coordinates node, in
    the native order of the source text. -/
def nodeTuples (el : Xml) : List String :=
  match el.text with
  | some t => pySplitWs (pyStrip t)
  | Option.none => []

/-- The tuple strings of every node of a list, concatenated. -/
def listTuples : List Xml → List String
  | [] => []
  | el :: rest => nodeTuples el ++ listTuples rest

/-- The stripped tuple string of the Point coordinates node the code reads,
    when present with text. -/
def pointTuples (pm : Xml) : List String :=
  match pointNode pm with
  | some el =>
    match el.text with
    | some t => [pyStrip t]
    | Option.none => []
  | Option.none => []

/-- Every tuple string the code can read under one Placemark. -/
def pmTuples (pm : Xml) : List String :=
  pointTuples pm ++ listTuples (lineNodes pm) ++ listTuples (polyNodes pm)

/-- Every tuple string the code can read under a list of Placemarks. -/
def pmsTuples : List Xml → List String
  | [] => []
  | pm :: rest => pmTuples pm ++ pmsTuples rest

/-- Every tuple string the code can read in a document. -/
def docTuples (root : Xml) : List String :=
  pmsTuples (findDesc root "Placemark")

/-- A coordinates text whose comma tokens do not all parse as floats. -/
def pointTextBad (el : Xml) : Prop :=
  ∃ t, el.text = some t
    ∧ ∃ tok ∈ pySplitComma (pyStrip t), pyFloat? tok = Option.none

/-- A multi-point coordinates text one of whose tuples has a token that does
    not parse as a float. -/
def lineTextBad (el : Xml) : Prop :=
  ∃ t, el.text = some t
    ∧ ∃ c ∈ pySplitWs (pyStrip t),
        ∃ tok ∈ pySplitComma c, pyFloat? tok = Option.none

/-- A Placemark one of whose read coordinates nodes (the first Point node,
    any LineString node, any Polygon outer-boundary node) carries a
    non-numeric token. -/
def pmHasBadToken (pm : Xml) : Prop :=
  (∃ el, pointNode pm = some el ∧ pointTextBad el)
  ∨ (∃ el ∈ lineNodes pm, lineTextBad el)
  ∨ (∃ el ∈ polyNodes pm, lineTextBad el)

/-- A Placemark one of whose read coordinates nodes is present but has no
    text node at all. -/
def pmHasNoneText (pm : Xml) : Prop :=
  (∃ el, pointNode pm = some el ∧ el.text = Option.none)
  ∨ (∃ el ∈ lineNodes pm, el.text = Option.none)
  ∨ (∃ el ∈ polyNodes pm, el.text = Option.none)

/-- Shorthand for a kml coordinates element. -/
def coordsEl (t : Option String) : Xml := .mk "coordinates" t []

/-- Shorthand for a kml Point element holding one coordinates element. -/
def pointEl (t : Option String) : Xml := .mk "Point" Option.none [coordsEl t]

/-- Shorthand for a kml LineString element holding one coordinates element. -/
def lineEl (t : Option String) : Xml := .mk "LineString" Option.none [coordsEl t]

/-- Shorthand for a kml Polygon element with one outer boundary ring. -/
def polyEl (t : Option String) : Xml :=
  .mk "Polygon" Option.none
    [.mk "outerBoundaryIs" Option.none
      [.mk "LinearRing" Option.none [coordsEl t]]]

/-- Shorthand for a kml name element. -/
def nameEl (t : Option String) : Xml := .mk "name" t []

/-- Shorthand for a kml Placemark element. -/
def pmEl (cs : List Xml) : Xml := .mk "Placemark" Option.none cs

/-- Shorthand for a kml document holding one Document element. -/
def docEl (cs : List Xml) : Xml :=
  .mk "kml" Option.none [.mk "Document" Option.none cs]

/-- A document with one Placemark named img1.jpg holding the point lon 2 lat 1. -/
def kmlDocA : Xml := docEl [pmEl [nameEl (some "img1.jpg"), pointEl (some "2,1")]]

/-- The Feature parse_kml extracts from kmlDocA. -/
def fA : Feature := ⟨.point 2 1, some "img1.jpg"⟩

/-- A document with one Placemark named cam holding a point with an altitude. -/
def kmlDocC5 : Xml :=
  docEl [pmEl [nameEl (some "cam"), pointEl (some "-122.1,37.7,10")]]

/-- A document with one Placemark holding a whitespace-only LineString. -/
def kmlDocC6 : Xml := docEl [pmEl [lineEl (some "   ")]]

/-- A document whose Placemark holds a valid first Point and a second Point
    with a non-numeric coordinates text. -/
def kmlDocC7 : Xml :=
  docEl [pmEl [nameEl (some "p"), pointEl (some "1,2"), pointEl (some "abc,def")]]

/-- A document whose Placemark holds a LineString with a non-numeric token. -/
def kmlDocC7w : Xml := docEl [pmEl [lineEl (some "0,0 x,1")]]

/-- A document whose Placemark holds a valid first Point and a second Point
    whose coordinates element has no text at all. -/
def kmlDocC8 : Xml :=
  docEl [pmEl [pointEl (some "3,4"), pointEl Option.none]]

/-- A document whose Placemark holds a Point whose coordinates element has no
    text at all. -/
def kmlDocC8w : Xml := docEl [pmEl [pointEl Option.none]]

/-- A document whose Placemark holds a single-space LineString. -/
def kmlDocC9 : Xml := docEl [pmEl [lineEl (some " ")]]

/-- The Placemark of kmlDocC9. -/
def pmC9 : Xml := pmEl [lineEl (some " ")]

/-- A Placemark whose name element is present but empty, with one point. -/
def pmC10 : Xml := pmEl [nameEl Option.none, pointEl (some "5,6")]

/-- A GPX document holding the single waypoint name a.jpg, lat 1, lon 2. -/
def gpxDocC4 : Gpx := ⟨[], [⟨some "a.jpg", 1, 2⟩]⟩

/-- Whether an Except value is an ok result. -/
def isOkE {ε α : Type} : Except ε α → Bool
  | .ok _ => true
  | .error _ => false

/-- A document with one Placemark holding a two-point LineString. -/
def pmC6w : Xml := pmEl [lineEl (some "0,0 1,1")]

/-- The document around pmC6w. -/
def kmlDocC6w : Xml := docEl [pmC6w]

theorem mapFloat_sound :
    ∀ (toks : List String) (vs : List ℚ), mapFloat toks = some vs →
      ∀ tok ∈ toks, ∃ v, pyFloat? tok = some v := by
  intro toks
  induction toks with
  | nil => intro vs _ tok htok; cases htok
  | cons t ts ih =>
    intro vs h tok htok
    unfold mapFloat at h
    split at h
    · rename_i v vs' hv hvs
      cases htok with
      | head => exact ⟨v, hv⟩
      | tail _ hmem => exact ih vs' hvs tok hmem
    · cases h

theorem parseTuple_tokens (c : String) (p : ℚ × ℚ) (h : parseTuple c = .ok p) :
    ∀ tok ∈ pySplitComma c, ∃ v, pyFloat? tok = some v := by
  unfold parseTuple at h
  split at h
  · cases h
  · rename_i a b rest hm
    exact mapFloat_sound _ _ hm
  · cases h

theorem parseTuples_sound :
    ∀ (cs : List String) (ps : List (ℚ × ℚ)), parseTuples cs = .ok ps →
      (∀ c ∈ cs, ∃ q, parseTuple c = .ok q)
      ∧ (∀ p ∈ ps, ∃ c ∈ cs, parseTuple c = .ok p) := by
  intro cs
  induction cs with
  | nil =>
    intro ps h
    cases h
    exact ⟨fun c hc => absurd hc (List.not_mem_nil c),
      fun p hp => absurd hp (List.not_mem_nil p)⟩
  | cons c cs ih =>
    intro ps h
    unfold parseTuples at h
    split at h
    · cases h
    · rename_i q hq
      split at h
      · cases h
      · rename_i qs hqs
        cases h
        constructor
        · intro c' hc'
          cases hc' with
          | head => exact ⟨q, hq⟩
          | tail _ hmem => exact (ih qs hqs).1 c' hmem
        · intro p hp
          cases hp with
          | head => exact ⟨c, List.mem_cons_self _ _, hq⟩
          | tail _ hmem =>
            obtain ⟨c', hc', hp'⟩ := (ih qs hqs).2 p hmem
            exact ⟨c', List.mem_cons_of_mem _ hc', hp'⟩

theorem parseLineCoords_sound (txt : Option String) (ps : List (ℚ × ℚ))
    (h : parseLineCoords txt = .ok ps) :
    ∃ t, txt = some t
      ∧ (∀ c ∈ pySplitWs (pyStrip t), ∃ q, parseTuple c = .ok q)
      ∧ (∀ p ∈ ps, ∃ c ∈ pySplitWs (pyStrip t), parseTuple c = .ok p) := by
  cases txt with
  | none => cases h
  | some t =>
    have h' : parseTuples (pySplitWs (pyStrip t)) = .ok ps := h
    exact ⟨t, rfl, (parseTuples_sound _ _ h').1, (parseTuples_sound _ _ h').2⟩

theorem collectCoords_nodes (mk : List (ℚ × ℚ) → Geometry)
    (name : Option String) :
    ∀ (els : List Xml) (fs : List Feature), collectCoords mk name els = .ok fs →
      ∀ el ∈ els, ∃ ps, parseLineCoords el.text = .ok ps := by
  intro els
  induction els with
  | nil => intro fs _ el hel; cases hel
  | cons e rest ih =>
    intro fs h el hel
    unfold collectCoords at h
    split at h
    · cases h
    · rename_i coords hcoords
      split at h
      · cases h
      · rename_i fs' hrec
        cases hel with
        | head => exact ⟨coords, hcoords⟩
        | tail _ hmem => exact ih fs' hrec el hmem

theorem collectCoords_shape (mk : List (ℚ × ℚ) → Geometry)
    (name : Option String) :
    ∀ (els : List Xml) (fs : List Feature), collectCoords mk name els = .ok fs →
      ∀ f ∈ fs, ∃ cs, f.geometry = mk cs ∧ cs ≠ []
        ∧ ∀ p ∈ cs, ∃ c ∈ listTuples els, parseTuple c = .ok p := by
  intro els
  induction els with
  | nil =>
    intro fs h f hf
    cases h
    cases hf
  | cons e rest ih =>
    intro fs h f hf
    unfold collectCoords at h
    split at h
    · cases h
    · rename_i coords hcoords
      split at h
      · cases h
      · rename_i fs' hrec
        cases h
        have hrecmem : ∀ f ∈ fs', ∃ cs, f.geometry = mk cs ∧ cs ≠ []
            ∧ ∀ p ∈ cs, ∃ c ∈ listTuples rest, parseTuple c = .ok p :=
          ih fs' hrec
        have hlift : ∀ f ∈ fs', ∃ cs, f.geometry = mk cs ∧ cs ≠ []
            ∧ ∀ p ∈ cs, ∃ c ∈ listTuples (e :: rest), parseTuple c = .ok p := by
          intro f' hf'
          obtain ⟨cs, h1, h2, h3⟩ := hrecmem f' hf'
          refine ⟨cs, h1, h2, fun p hp => ?_⟩
          obtain ⟨c, hc, hcp⟩ := h3 p hp
          exact ⟨c, by
            unfold listTuples
            exact List.mem_append.mpr (Or.inr hc), hcp⟩
        by_cases hce : coords.isEmpty = true
        · simp only [hce, if_true] at hf
          exact hlift f hf
        · simp only [hce, if_false] at hf
          simp at hf
          rcases hf with hfh | hfm
          · subst hfh
            refine ⟨coords, rfl,
              fun hnil => hce (by rw [hnil]; rfl), fun p hp => ?_⟩
            obtain ⟨t, htxt, _, hps⟩ := parseLineCoords_sound e.text coords hcoords
            obtain ⟨c, hc, hcp⟩ := hps p hp
            refine ⟨c, ?_, hcp⟩
            unfold listTuples
            refine List.mem_append.mpr (Or.inl ?_)
            unfold nodeTuples
            rw [htxt]
            exact hc
          · exact hlift f hfm

theorem collectCoords_count (mk : List (ℚ × ℚ) → Geometry)
    (name : Option String) :
    ∀ (els : List Xml) (fs : List Feature), collectCoords mk name els = .ok fs →
      fs.length = ((els.filter nodeYields)).length := by
  intro els
  induction els with
  | nil =>
    intro fs h
    cases h
    rfl
  | cons e rest ih =>
    intro fs h
    unfold collectCoords at h
    split at h
    · cases h
    · rename_i coords hcoords
      split at h
      · cases h
      · rename_i fs' hrec
        cases h
        have hyield : nodeYields e = !coords.isEmpty := by
          unfold nodeYields
          rw [hcoords]
          cases coords with
          | nil => rfl
          | cons a as => rfl
        cases hce : coords.isEmpty with
        | true =>
          rw [List.filter_cons, hyield, hce]
          simp [ih fs' hrec]
        | false =>
          rw [List.filter_cons, hyield, hce]
          simp [ih fs' hrec]

theorem pointPart_inv (pm : Xml) (name : Option String) (fs : List Feature)
    (h : pointPart pm name = .ok fs) :
    (pointNode pm = Option.none ∧ fs = [])
    ∨ (∃ el lon lat, pointNode pm = some el
        ∧ parsePointCoords el.text = .ok (lon, lat)
        ∧ fs = [⟨.point lon lat, name⟩]) := by
  unfold pointPart at h
  split at h
  · rename_i hpt
    cases h
    exact Or.inl ⟨hpt, rfl⟩
  · rename_i el hpt
    split at h
    · cases h
    · rename_i lon lat hc
      cases h
      exact Or.inr ⟨el, lon, lat, hpt, hc, rfl⟩

theorem processPlacemark_inv (pm : Xml) (fs : List Feature)
    (h : processPlacemark pm = .ok fs) :
    ∃ ptFs lsFs pgFs,
      pointPart pm (placemarkName pm) = .ok ptFs
      ∧ collectCoords Geometry.lineString (placemarkName pm) (lineNodes pm)
          = .ok lsFs
      ∧ collectCoords Geometry.polygon (placemarkName pm) (polyNodes pm)
          = .ok pgFs
      ∧ fs = ptFs ++ lsFs ++ pgFs := by
  unfold processPlacemark at h
  split at h
  · cases h
  · rename_i ptFs h1
    split at h
    · cases h
    · rename_i lsFs h2
      split at h
      · cases h
      · rename_i pgFs h3
        cases h
        exact ⟨ptFs, lsFs, pgFs, h1, h2, h3, rfl⟩

theorem processPlacemarks_ok :
    ∀ (pms : List Xml) (fs : List Feature), processPlacemarks pms = .ok fs →
      ∀ pm ∈ pms, ∃ fs', processPlacemark pm = .ok fs' := by
  intro pms
  induction pms with
  | nil => intro fs _ pm hpm; cases hpm
  | cons q rest ih =>
    intro fs h pm hpm
    unfold processPlacemarks at h
    split at h
    · cases h
    · rename_i fs1 h1
      split at h
      · cases h
      · rename_i fs2 h2
        cases hpm with
        | head => exact ⟨fs1, h1⟩
        | tail _ hmem => exact ih fs2 h2 pm hmem

theorem processPlacemarks_mem :
    ∀ (pms : List Xml) (fs : List Feature), processPlacemarks pms = .ok fs →
      ∀ f ∈ fs, ∃ pm ∈ pms, ∃ fs', processPlacemark pm = .ok fs' ∧ f ∈ fs' := by
  intro pms
  induction pms with
  | nil =>
    intro fs h f hf
    cases h
    cases hf
  | cons q rest ih =>
    intro fs h f hf
    unfold processPlacemarks at h
    split at h
    · cases h
    · rename_i fs1 h1
      split at h
      · cases h
      · rename_i fs2 h2
        cases h
        rcases List.mem_append.mp hf with hm | hm
        · exact ⟨q, List.mem_cons_self _ _, fs1, h1, hm⟩
        · obtain ⟨pm, hpm, fs', hok, hmem⟩ := ih fs2 h2 f hm
          exact ⟨pm, List.mem_cons_of_mem _ hpm, fs', hok, hmem⟩

theorem pointPart_names (pm : Xml) (name : Option String) (fs : List Feature)
    (h : pointPart pm name = .ok fs) : ∀ f ∈ fs, f.name = name := by
  unfold pointPart at h
  split at h
  · cases h; simp
  · split at h
    · cases h
    · cases h
      intro f hf
      simp at hf
      rw [hf]

theorem collectCoords_names (mk : List (ℚ × ℚ) → Geometry)
    (name : Option String) :
    ∀ (els : List Xml) (fs : List Feature),
      collectCoords mk name els = .ok fs → ∀ f ∈ fs, f.name = name := by
  intro els
  induction els with
  | nil =>
    intro fs h
    cases h
    simp
  | cons el rest ih =>
    intro fs h
    unfold collectCoords at h
    split at h
    · cases h
    · rename_i coords hcoords
      split at h
      · cases h
      · rename_i fs' hrec
        cases h
        intro f hf
        by_cases hce : coords.isEmpty = true
        · simp only [hce, if_true] at hf
          exact ih fs' hrec f hf
        · simp only [hce, if_false] at hf
          simp at hf
          rcases hf with hf | hf
          · rw [hf]
          · exact ih fs' hrec f hf

theorem processPlacemark_names (pm : Xml) (fs : List Feature)
    (h : processPlacemark pm = .ok fs) :
    ∀ f ∈ fs, f.name = placemarkName pm := by
  unfold processPlacemark at h
  split at h
  · cases h
  · rename_i ptFs h1
    split at h
    · cases h
    · rename_i lsFs h2
      split at h
      · cases h
      · rename_i pgFs h3
        cases h
        intro f hf
        rcases List.mem_append.mp hf with hf' | hf'
        · rcases List.mem_append.mp hf' with hf'' | hf''
          · exact pointPart_names pm (placemarkName pm) ptFs h1 f hf''
          · exact collectCoords_names Geometry.lineString (placemarkName pm)
              (lineNodes pm) lsFs h2 f hf''
        · exact collectCoords_names Geometry.polygon (placemarkName pm)
            (polyNodes pm) pgFs h3 f hf'

/-- C10: when a Placemark's name element is present but holds no text, every
    Feature emitted for that Placemark has a None properties name, and the
    empty string is used precisely in the branch where the name element is
    absent. -/
theorem c10_placemark_name_none (pm : Xml) (fs : List Feature)
    (h : processPlacemark pm = .ok fs) :
    ((∃ el, findChild pm "name" = some el ∧ el.text = Option.none) →
        ∀ f ∈ fs, f.name = Option.none)
    ∧ (findChild pm "name" = Option.none → ∀ f ∈ fs, f.name = some "") := by
  constructor
  · rintro ⟨el, hel, htxt⟩ f hf
    rw [processPlacemark_names pm fs h f hf]
    unfold placemarkName
    rw [hel]
    exact htxt
  · intro habs f hf
    rw [processPlacemark_names pm fs h f hf]
    unfold placemarkName
    rw [habs]

/-- C10 witness: the Placemark pmC10 carries an empty name element and one
    point; its emitted Feature has a None name. -/
theorem c10_witness :
    processPlacemark pmC10 = .ok [⟨Geometry.point 5 6, Option.none⟩]
      ∧ (⟨Geometry.point 5 6, Option.none⟩ : Feature).name = Option.none := by
  have hok : processPlacemark pmC10 = .ok [⟨Geometry.point 5 6, Option.none⟩] := by
    with_unfolding_all rfl
  refine ⟨hok, ?_⟩
  exact (c10_placemark_name_none pmC10 [⟨Geometry.point 5 6, Option.none⟩] hok).1
    ⟨nameEl Option.none, by with_unfolding_all rfl, rfl⟩ _ (by simp)

/-- C2 counterexample: a record whose name is the empty string is not
    excluded from the geo-name lookup; it is inserted under the key "", and a
    lookup of "" finds it. -/
theorem c2_counterexample :
    geoDictGpx [⟨"", 1, 2⟩] = [("", ⟨"", 1, 2⟩)]
      ∧ dictGet (geoDictGpx [⟨"", 1, 2⟩]) "" = some ⟨"", 1, 2⟩ := by
  exact ⟨by with_unfolding_all rfl, by with_unfolding_all rfl⟩

/-- C2 (amended): the lookup filter excludes only records lacking a name key,
    which never happens for parser output, so every record is included - a
    record with an empty name under the key "".  For every included record
    the key is basename of the name, an exact lookup on each media filename
    decides the match, and a KML record whose name is Python None makes the
    lookup construction raise TypeError. -/
theorem c2_amended :
    (∀ (ps : List GeoPoint) (p : GeoPoint), p ∈ ps →
        (basename p.name, p) ∈ geoDictGpx ps)
    ∧ (∀ (ps : List GeoPoint) (fname : String) (p : GeoPoint),
        dictGet (geoDictGpx ps) fname = some p → basename p.name = fname)
    ∧ (∀ (fs : List Feature) (d : List (String × Feature)),
        geoDictKml fs = .ok d →
          ∀ f ∈ fs, ∃ n, f.name = some n ∧ (basename n, f) ∈ d)
    ∧ (∀ (fs : List Feature) (f : Feature), f ∈ fs → f.name = Option.none →
        geoDictKml fs = .error .typeError) := by
  refine ⟨?_, ?_, ?_, ?_⟩
  · intro ps
    induction ps with
    | nil => intro p hp; cases hp
    | cons q qs ih =>
      intro p hp
      cases hp with
      | head => exact List.mem_cons_self _ _
      | tail _ hmem => exact List.mem_cons_of_mem _ (ih p hmem)
  · intro ps
    induction ps with
    | nil => intro fname p h; cases h
    | cons q qs ih =>
      intro fname p h
      unfold geoDictGpx dictGet at h
      cases hr : dictGet (geoDictGpx qs) fname with
      | some v' =>
        rw [hr] at h
        cases h
        exact ih fname p hr
      | none =>
        rw [hr] at h
        by_cases hk : (basename q.name == fname) = true
        · rw [if_pos hk] at h
          cases h
          exact eq_of_beq hk
        · rw [if_neg hk] at h
          cases h
  · intro fs
    induction fs with
    | nil => intro d _ f hf; cases hf
    | cons g gs ih =>
      intro d h f hf
      unfold geoDictKml at h
      cases hn : g.name with
      | none => rw [hn] at h; cases h
      | some n =>
        rw [hn] at h
        cases hr : geoDictKml gs with
        | error e => rw [hr] at h; cases h
        | ok d' =>
          rw [hr] at h
          cases h
          cases hf with
          | head => exact ⟨n, hn, List.mem_cons_self _ _⟩
          | tail _ hmem =>
            obtain ⟨n', hn', hmem'⟩ := ih d' hr f hmem
            exact ⟨n', hn', List.mem_cons_of_mem _ hmem'⟩
  · intro fs
    induction fs with
    | nil => intro f hf; cases hf
    | cons g gs ih =>
      intro f hf hnone
      unfold geoDictKml
      cases hn : g.name with
      | none => rfl
      | some n =>
        cases hf with
        | head => rw [hnone] at hn; cases hn
        | tail _ hmem =>
          rw [ih f hmem hnone]

/-- C2 witness: the amended lookup behavior at concrete inputs. -/
theorem c2_amended_witness :
    (basename "a.jpg", (⟨"a.jpg", 1, 2⟩ : GeoPoint))
        ∈ geoDictGpx [⟨"a.jpg", 1, 2⟩]
    ∧ basename (⟨"a.jpg", 1, 2⟩ : GeoPoint).name = "a.jpg"
    ∧ geoDictKml [⟨.point 2 1, Option.none⟩] = .error .typeError := by
  refine ⟨c2_amended.1 [⟨"a.jpg", 1, 2⟩] ⟨"a.jpg", 1, 2⟩ (by simp),
    c2_amended.2.1 [⟨"a.jpg", 1, 2⟩] "a.jpg" ⟨"a.jpg", 1, 2⟩
      (by with_unfolding_all rfl),
    c2_amended.2.2.2 [⟨.point 2 1, Option.none⟩] ⟨.point 2 1, Option.none⟩
      (by simp) rfl⟩

/-- C5: for a Point coordinates text whose stripped form splits on commas
    into three numeric tokens, the parsed pair is the first two values in
    native lon, lat order and the altitude is discarded; on the document
    kmlDocC5 with coordinates -122.1,37.7,10 the emitted Feature is the point
    lon -122.1 lat 37.7. -/
theorem c5_point_altitude_discarded :
    (∀ (t a b c : String) (va vb vc : ℚ),
        pySplitComma (pyStrip t) = [a, b, c] →
        pyFloat? a = some va → pyFloat? b = some vb → pyFloat? c = some vc →
        parsePointCoords (some t) = .ok (va, vb))
    ∧ parse_kml kmlDocC5
        = .ok [⟨.point ((-1221 : ℚ)/10) ((377 : ℚ)/10), some "cam"⟩] := by
  constructor
  · intro t a b c va vb vc hsplit ha hb hc
    have hstep : parsePointCoords (some t) = parseTuple (pyStrip t) := rfl
    rw [hstep]
    unfold parseTuple
    rw [hsplit]
    simp [mapFloat, ha, hb, hc]
  · with_unfolding_all rfl

/-- C5 witness: the tuple -122.1,37.7,10 parses to the pair
    (-122.1, 37.7). -/
theorem c5_witness :
    parsePointCoords (some "-122.1,37.7,10")
      = .ok ((-1221 : ℚ)/10, (377 : ℚ)/10) :=
  c5_point_altitude_discarded.1 "-122.1,37.7,10" "-122.1" "37.7" "10"
    ((-1221 : ℚ)/10) ((377 : ℚ)/10) 10
    (by with_unfolding_all rfl) (by with_unfolding_all rfl)
    (by with_unfolding_all rfl) (by with_unfolding_all rfl)

/-- C1 counterexample: on kmlDocA the media file img1.jpg matches the
    Feature fA, and the serialized download is fA itself - a dict of JSON
    type Feature with no features array and no filename or filetype
    property - not a FeatureCollection holding exactly one Feature. -/
theorem c1_counterexample :
    parse_kml kmlDocA = .ok [fA]
    ∧ geoDictKml [fA] = .ok [("img1.jpg", fA)]
    ∧ dictGet [("img1.jpg", fA)] "img1.jpg" = some fA
    ∧ module1DownloadKml fA = .ok fA.toVal
    ∧ fA.toVal.lookup "type" = some (.str "Feature")
    ∧ fA.toVal.lookup "features" = Option.none
    ∧ fA.toVal.lookup "type" ≠ some (.str "FeatureCollection")
    ∧ fA.toVal.lookup "properties"
        = some (.dict [("name", .str "img1.jpg")]) := by
  refine ⟨by with_unfolding_all rfl, by with_unfolding_all rfl,
    by with_unfolding_all rfl, by with_unfolding_all rfl,
    by with_unfolding_all rfl, by with_unfolding_all rfl, ?_,
    by with_unfolding_all rfl⟩
  intro h
  rw [show fA.toVal.lookup "type" = some (.str "Feature") from
    by with_unfolding_all rfl] at h
  simp at h

/-- C1 (amended): for a media filename matched in a KML-built lookup, the
    download serializes the matched Feature itself, unwrapped (for a
    geometry whose top-level coordinates list has at least two entries; a
    shorter one raises IndexError at coords[1] first); for a GPX-built
    lookup the match handling raises KeyError on match["geometry"] before
    any download. -/
theorem c1_amended :
    (∀ (fs : List Feature) (d : List (String × Feature)) (fname : String)
        (f : Feature),
        geoDictKml fs = .ok d → dictGet d fname = some f →
        2 ≤ topCoordsLen f.geometry →
        module1DownloadKml f = .ok f.toVal)
    ∧ (∀ (ps : List GeoPoint) (fname : String) (p : GeoPoint),
        dictGet (geoDictGpx ps) fname = some p →
        module1DownloadGpx p = .error .keyError) := by
  constructor
  · intro fs d fname f _ _ hlen
    unfold module1DownloadKml
    rw [if_neg (Nat.not_lt.mpr hlen)]
  · intro ps fname p _
    with_unfolding_all rfl

/-- C1 witness: the amended download behavior at concrete matched records. -/
theorem c1_amended_witness :
    module1DownloadKml fA = .ok fA.toVal
    ∧ module1DownloadGpx ⟨"a.jpg", 1, 2⟩ = .error .keyError :=
  ⟨c1_amended.1 [fA] [("img1.jpg", fA)] "img1.jpg" fA
      (by with_unfolding_all rfl) (by with_unfolding_all rfl) (by decide),
   c1_amended.2 [⟨"a.jpg", 1, 2⟩] "a.jpg" ⟨"a.jpg", 1, 2⟩
      (by with_unfolding_all rfl)⟩

theorem processPlacemark_not_ok_of_bad (pm : Xml) (hbad : pmHasBadToken pm)
    (fs : List Feature) (h : processPlacemark pm = .ok fs) : False := by
  obtain ⟨ptFs, lsFs, pgFs, h1, h2, h3, _⟩ := processPlacemark_inv pm fs h
  rcases hbad with ⟨el, hel, t, htxt, tok, hmem, hbadtok⟩ | hline | hpoly
  · rcases pointPart_inv pm _ ptFs h1 with ⟨hnone, _⟩ | ⟨el', lon, lat, hel', hc, _⟩
    · rw [hel] at hnone; cases hnone
    · rw [hel] at hel'
      cases hel'
      rw [htxt] at hc
      have hc' : parseTuple (pyStrip t) = .ok (lon, lat) := hc
      obtain ⟨v, hv⟩ := parseTuple_tokens _ _ hc' tok hmem
      rw [hv] at hbadtok
      cases hbadtok
  · obtain ⟨el, helmem, t, htxt, c, hcmem, tok, htokmem, hbadtok⟩ := hline
    obtain ⟨ps, hok⟩ := collectCoords_nodes _ _ _ lsFs h2 el helmem
    rw [htxt] at hok
    have hok' : parseTuples (pySplitWs (pyStrip t)) = .ok ps := hok
    obtain ⟨q, hq⟩ := (parseTuples_sound _ _ hok').1 c hcmem
    obtain ⟨v, hv⟩ := parseTuple_tokens _ _ hq tok htokmem
    rw [hv] at hbadtok
    cases hbadtok
  · obtain ⟨el, helmem, t, htxt, c, hcmem, tok, htokmem, hbadtok⟩ := hpoly
    obtain ⟨ps, hok⟩ := collectCoords_nodes _ _ _ pgFs h3 el helmem
    rw [htxt] at hok
    have hok' : parseTuples (pySplitWs (pyStrip t)) = .ok ps := hok
    obtain ⟨q, hq⟩ := (parseTuples_sound _ _ hok').1 c hcmem
    obtain ⟨v, hv⟩ := parseTuple_tokens _ _ hq tok htokmem
    rw [hv] at hbadtok
    cases hbadtok

theorem processPlacemark_not_ok_of_none (pm : Xml) (hbad : pmHasNoneText pm)
    (fs : List Feature) (h : processPlacemark pm = .ok fs) : False := by
  obtain ⟨ptFs, lsFs, pgFs, h1, h2, h3, _⟩ := processPlacemark_inv pm fs h
  rcases hbad with ⟨el, hel, htxt⟩ | ⟨el, helmem, htxt⟩ | ⟨el, helmem, htxt⟩
  · rcases pointPart_inv pm _ ptFs h1 with ⟨hnone, _⟩ | ⟨el', lon, lat, hel', hc, _⟩
    · rw [hel] at hnone; cases hnone
    · rw [hel] at hel'
      cases hel'
      rw [htxt] at hc
      cases hc
  · obtain ⟨ps, hok⟩ := collectCoords_nodes _ _ _ lsFs h2 el helmem
    rw [htxt] at hok
    cases hok
  · obtain ⟨ps, hok⟩ := collectCoords_nodes _ _ _ pgFs h3 el helmem
    rw [htxt] at hok
    cases hok

/-- C6: parse_kml never emits a LineString or Polygon Feature whose
    coordinate list is empty; in particular the whitespace-only LineString of
    kmlDocC6 contributes no Feature at all. -/
theorem c6_no_empty_multipoint :
    (∀ (root : Xml) (fs : List Feature), parse_kml root = .ok fs →
      ∀ f ∈ fs,
        (∀ cs, f.geometry = .lineString cs → cs ≠ [])
        ∧ (∀ cs, f.geometry = .polygon cs → cs ≠ []))
    ∧ parse_kml kmlDocC6 = .ok [] := by
  constructor
  · intro root fs h f hf
    obtain ⟨pm, _, fs', hpm, hf'⟩ := processPlacemarks_mem _ _ h f hf
    obtain ⟨ptFs, lsFs, pgFs, h1, h2, h3, hsplit⟩ := processPlacemark_inv pm fs' hpm
    subst hsplit
    rcases List.mem_append.mp hf' with hm | hm
    · rcases List.mem_append.mp hm with hm' | hm'
      · rcases pointPart_inv pm _ ptFs h1 with ⟨_, hnil⟩ | ⟨el, lon, lat, _, _, heq⟩
        · subst hnil; cases hm'
        · subst heq
          simp at hm'
          subst hm'
          constructor
          · intro cs hcs; cases hcs
          · intro cs hcs; cases hcs
      · obtain ⟨cs, hcs, hne, _⟩ := collectCoords_shape _ _ _ lsFs h2 f hm'
        constructor
        · intro cs' hcs'
          rw [hcs] at hcs'
          injection hcs' with hcc
          rw [← hcc]
          exact hne
        · intro cs' hcs'
          rw [hcs] at hcs'
          cases hcs'
    · obtain ⟨cs, hcs, hne, _⟩ := collectCoords_shape _ _ _ pgFs h3 f hm
      constructor
      · intro cs' hcs'
        rw [hcs] at hcs'
        cases hcs'
      · intro cs' hcs'
        rw [hcs] at hcs'
        injection hcs' with hcc
        rw [← hcc]
        exact hne
  · with_unfolding_all rfl

/-- C6 witness: on kmlDocC6w, whose LineString parses to two pairs, the
    emitted LineString Feature has a nonempty coordinate list. -/
theorem c6_witness :
    parse_kml kmlDocC6w = .ok [⟨.lineString [(0, 0), (1, 1)], some ""⟩]
    ∧ ([((0 : ℚ), (0 : ℚ)), ((1 : ℚ), (1 : ℚ))] : List (ℚ × ℚ)) ≠ [] := by
  have hok : parse_kml kmlDocC6w
      = .ok [⟨.lineString [(0, 0), (1, 1)], some ""⟩] := by
    with_unfolding_all rfl
  refine ⟨hok, ?_⟩
  exact (c6_no_empty_multipoint.1 kmlDocC6w
    [⟨.lineString [(0, 0), (1, 1)], some ""⟩] hok
    ⟨.lineString [(0, 0), (1, 1)], some ""⟩ (by simp)).1
    [(0, 0), (1, 1)] rfl

/-- C7 counterexample: kmlDocC7 contains a coordinates text node with the
    non-numeric tokens abc and def, yet parse_kml succeeds and silently skips
    that geometry, because only the first Point coordinates node under the
    Placemark is ever read. -/
theorem c7_counterexample :
    findDesc kmlDocC7 "coordinates"
      = [coordsEl (some "1,2"), coordsEl (some "abc,def")]
    ∧ pyFloat? "abc" = Option.none
    ∧ parse_kml kmlDocC7 = .ok [⟨.point 1 2, some "p"⟩] := by
  exact ⟨by with_unfolding_all rfl, by with_unfolding_all rfl,
    by with_unfolding_all rfl⟩

/-- C7 (amended): if a coordinates text node that parse_kml actually reads -
    the first Point node under a Placemark, or any LineString or Polygon
    outer-boundary node - contains a token that fails numeric parsing, the
    error propagates and aborts extraction for the whole document: no Feature
    list is returned. -/
theorem c7_amended_abort (root : Xml)
    (h : ∃ pm ∈ findDesc root "Placemark", pmHasBadToken pm) :
    isOkE (parse_kml root) = false := by
  obtain ⟨pm, hmem, hbad⟩ := h
  unfold parse_kml
  cases hpp : processPlacemarks (findDesc root "Placemark") with
  | error e => rfl
  | ok fs =>
    exfalso
    obtain ⟨fs', hok⟩ := processPlacemarks_ok _ _ hpp pm hmem
    exact processPlacemark_not_ok_of_bad pm hbad fs' hok

/-- C7 witness: the LineString tuple x,1 of kmlDocC7w has a non-numeric
    token, and extraction of the whole document fails. -/
theorem c7_amended_witness : isOkE (parse_kml kmlDocC7w) = false := by
  refine c7_amended_abort kmlDocC7w
    ⟨pmEl [lineEl (some "0,0 x,1")], ?_, Or.inr (Or.inl ?_)⟩
  · rw [show findDesc kmlDocC7w "Placemark" = [pmEl [lineEl (some "0,0 x,1")]]
      from by with_unfolding_all rfl]
    simp
  · refine ⟨coordsEl (some "0,0 x,1"), ?_, "0,0 x,1", rfl, "x,1", ?_, "x", ?_, ?_⟩
    · rw [show lineNodes (pmEl [lineEl (some "0,0 x,1")])
        = [coordsEl (some "0,0 x,1")] from by with_unfolding_all rfl]
      simp
    · rw [show pySplitWs (pyStrip "0,0 x,1") = ["0,0", "x,1"]
        from by with_unfolding_all rfl]
      simp
    · rw [show pySplitComma "x,1" = ["x", "1"] from by with_unfolding_all rfl]
      simp
    · with_unfolding_all rfl

/-- C8 counterexample: kmlDocC8 holds a Point coordinates element that is
    present but has no text at all, yet parse_kml raises nothing: the second
    Point node is never read, so the document parses successfully. -/
theorem c8_counterexample :
    findDesc kmlDocC8 "coordinates"
      = [coordsEl (some "3,4"), coordsEl Option.none]
    ∧ (coordsEl Option.none).text = Option.none
    ∧ parse_kml kmlDocC8 = .ok [⟨.point 3 4, some ""⟩] := by
  exact ⟨by with_unfolding_all rfl, rfl, by with_unfolding_all rfl⟩

/-- C8 (amended): a read coordinates element with no text content makes
    parse_kml raise: when the first Placemark's first Point coordinates node
    has no text the error is precisely AttributeError from strip on None,
    and in general a no-text node among the read ones aborts the whole
    document with some exception. -/
theorem c8_amended_none_text :
    (∀ (root pm : Xml) (rest : List Xml),
        findDesc root "Placemark" = pm :: rest →
        ∀ el, pointNode pm = some el → el.text = Option.none →
        parse_kml root = .error .attributeError)
    ∧ (∀ root : Xml,
        (∃ pm ∈ findDesc root "Placemark", pmHasNoneText pm) →
        isOkE (parse_kml root) = false) := by
  constructor
  · intro root pm rest hpl el hel htxt
    have hpt : pointPart pm (placemarkName pm) = .error .attributeError := by
      unfold pointPart
      rw [hel]
      simp only [htxt, parsePointCoords]
    have hpm : processPlacemark pm = .error .attributeError := by
      unfold processPlacemark
      rw [hpt]
    have hpms : processPlacemarks (pm :: rest) = .error .attributeError := by
      unfold processPlacemarks
      rw [hpm]
    unfold parse_kml
    rw [hpl]
    exact hpms
  · intro root h
    obtain ⟨pm, hmem, hbad⟩ := h
    unfold parse_kml
    cases hpp : processPlacemarks (findDesc root "Placemark") with
    | error e => rfl
    | ok fs =>
      exfalso
      obtain ⟨fs', hok⟩ := processPlacemarks_ok _ _ hpp pm hmem
      exact processPlacemark_not_ok_of_none pm hbad fs' hok

/-- C8 witness: on kmlDocC8w, whose only Point coordinates element has no
    text, parse_kml raises AttributeError. -/
theorem c8_amended_witness : parse_kml kmlDocC8w = .error .attributeError := by
  refine c8_amended_none_text.1 kmlDocC8w (pmEl [pointEl Option.none]) [] ?_
    (coordsEl Option.none) ?_ rfl
  · with_unfolding_all rfl
  · with_unfolding_all rfl

/-- C9 counterexample: pmC9's single LineString coordinates node (a lone
    space) produces no Feature at all, so it is not the case that every
    LineString coordinates node produces its own Feature. -/
theorem c9_counterexample :
    lineNodes pmC9 = [coordsEl (some " ")]
    ∧ processPlacemark pmC9 = .ok []
    ∧ parse_kml kmlDocC9 = .ok [] := by
  exact ⟨by with_unfolding_all rfl, by with_unfolding_all rfl,
    by with_unfolding_all rfl⟩

/-- C9 (amended): per Placemark, at most one Point Feature is emitted and any
    emitted Point Feature comes from the first Point coordinates node found,
    while the LineString and Polygon Features are in bijection with the
    LineString and Polygon outer-boundary coordinates nodes whose parsed
    coordinate list is nonempty. -/
theorem c9_first_point_only (pm : Xml) (fs : List Feature)
    (h : processPlacemark pm = .ok fs) :
    (fs.filter isPointF).length ≤ 1
    ∧ (∀ f ∈ fs, isPointF f = true →
        ∃ el, pointNode pm = some el
          ∧ ∃ lon lat, parsePointCoords el.text = .ok (lon, lat)
            ∧ f = ⟨.point lon lat, placemarkName pm⟩)
    ∧ (fs.filter isLineF).length = ((lineNodes pm).filter nodeYields).length
    ∧ (fs.filter isPolyF).length = ((polyNodes pm).filter nodeYields).length := by
  obtain ⟨ptFs, lsFs, pgFs, h1, h2, h3, hsplit⟩ := processPlacemark_inv pm fs h
  subst hsplit
  have hls : ∀ f ∈ lsFs,
      isLineF f = true ∧ isPointF f = false ∧ isPolyF f = false := by
    intro f hf
    obtain ⟨cs, hcs, _, _⟩ := collectCoords_shape _ _ _ _ h2 f hf
    refine ⟨?_, ?_, ?_⟩
    · unfold isLineF; rw [hcs]
    · unfold isPointF; rw [hcs]
    · unfold isPolyF; rw [hcs]
  have hpg : ∀ f ∈ pgFs,
      isPolyF f = true ∧ isPointF f = false ∧ isLineF f = false := by
    intro f hf
    obtain ⟨cs, hcs, _, _⟩ := collectCoords_shape _ _ _ _ h3 f hf
    refine ⟨?_, ?_, ?_⟩
    · unfold isPolyF; rw [hcs]
    · unfold isPointF; rw [hcs]
    · unfold isLineF; rw [hcs]
  have hlsL : lsFs.filter isLineF = lsFs :=
    List.filter_eq_self.mpr (fun f hf => (hls f hf).1)
  have hlsP : lsFs.filter isPointF = [] :=
    List.filter_eq_nil_iff.mpr (fun f hf => by rw [(hls f hf).2.1]; exact Bool.false_ne_true)
  have hlsPg : lsFs.filter isPolyF = [] :=
    List.filter_eq_nil_iff.mpr (fun f hf => by rw [(hls f hf).2.2]; exact Bool.false_ne_true)
  have hpgPoly : pgFs.filter isPolyF = pgFs :=
    List.filter_eq_self.mpr (fun f hf => (hpg f hf).1)
  have hpgP : pgFs.filter isPointF = [] :=
    List.filter_eq_nil_iff.mpr (fun f hf => by rw [(hpg f hf).2.1]; exact Bool.false_ne_true)
  have hpgL : pgFs.filter isLineF = [] :=
    List.filter_eq_nil_iff.mpr (fun f hf => by rw [(hpg f hf).2.2]; exact Bool.false_ne_true)
  have hcnt2 := collectCoords_count _ _ _ _ h2
  have hcnt3 := collectCoords_count _ _ _ _ h3
  rcases pointPart_inv pm _ ptFs h1 with ⟨hnone, hnil⟩ | ⟨el, lon, lat, hel, hc, heq⟩
  · subst hnil
    refine ⟨?_, ?_, ?_, ?_⟩
    · simp [List.filter_append, hlsP, hpgP]
    · intro f hf hpt
      simp at hf
      rcases hf with hf | hf
      · rw [(hls f hf).2.1] at hpt; cases hpt
      · rw [(hpg f hf).2.1] at hpt; cases hpt
    · simp only [List.nil_append, List.filter_append, hlsL, hpgL,
        List.append_nil, List.length_append]
      simpa using hcnt2
    · simp only [List.nil_append, List.filter_append, hlsPg, hpgPoly]
      simpa using hcnt3
  · subst heq
    refine ⟨?_, ?_, ?_, ?_⟩
    · simp [List.filter_append, hlsP, hpgP, isPointF]
    · intro f hf hpt
      simp at hf
      rcases hf with hf | hf | hf
      · exact ⟨el, hel, lon, lat, hc, hf⟩
      · rw [(hls f hf).2.1] at hpt; cases hpt
      · rw [(hpg f hf).2.1] at hpt; cases hpt
    · simp only [List.filter_append, hlsL, hpgL, List.append_nil,
        List.length_append]
      rw [show List.filter isLineF [(⟨.point lon lat, placemarkName pm⟩ : Feature)]
        = [] from rfl]
      simpa using hcnt2
    · simp only [List.filter_append, hlsPg, hpgPoly]
      rw [show List.filter isPolyF [(⟨.point lon lat, placemarkName pm⟩ : Feature)]
        = [] from rfl]
      simpa using hcnt3

/-- C9 witness: the amended counting behavior on the Placemark pmC6w. -/
theorem c9_witness :
    processPlacemark pmC6w = .ok [⟨.lineString [(0, 0), (1, 1)], some ""⟩]
    ∧ (([⟨.lineString [(0, 0), (1, 1)], some ""⟩] : List Feature).filter
          isLineF).length
        = ((lineNodes pmC6w).filter nodeYields).length := by
  have hok : processPlacemark pmC6w
      = .ok [⟨.lineString [(0, 0), (1, 1)], some ""⟩] := by
    with_unfolding_all rfl
  exact ⟨hok, (c9_first_point_only pmC6w _ hok).2.2.1⟩

theorem pmTuples_subset :
    ∀ (pms : List Xml) (pm : Xml), pm ∈ pms →
      ∀ c ∈ pmTuples pm, c ∈ pmsTuples pms := by
  intro pms
  induction pms with
  | nil => intro pm hpm; cases hpm
  | cons q rest ih =>
    intro pm hpm c hc
    unfold pmsTuples
    cases hpm with
    | head => exact List.mem_append.mpr (Or.inl hc)
    | tail _ hmem => exact List.mem_append.mpr (Or.inr (ih pm hmem c hc))

theorem processPlacemark_pairs (pm : Xml) (fs : List Feature)
    (h : processPlacemark pm = .ok fs) :
    ∀ f ∈ fs, ∀ pr ∈ geomPairs f.geometry,
      ∃ c ∈ pmTuples pm, parseTuple c = .ok pr := by
  obtain ⟨ptFs, lsFs, pgFs, h1, h2, h3, hsplit⟩ := processPlacemark_inv pm fs h
  subst hsplit
  intro f hf pr hpr
  rcases List.mem_append.mp hf with hm | hm
  · rcases List.mem_append.mp hm with hm' | hm'
    · rcases pointPart_inv pm _ ptFs h1 with ⟨_, hnil⟩ | ⟨el, lon, lat, hel, hc, heq⟩
      · subst hnil; cases hm'
      · subst heq
        simp at hm'
        subst hm'
        simp [geomPairs] at hpr
        cases hptxt : el.text with
        | none => rw [hptxt] at hc; cases hc
        | some t =>
          rw [hptxt] at hc
          have hc' : parseTuple (pyStrip t) = .ok (lon, lat) := hc
          refine ⟨pyStrip t, ?_, by rw [hpr]; exact hc'⟩
          unfold pmTuples
          refine List.mem_append.mpr (Or.inl (List.mem_append.mpr (Or.inl ?_)))
          unfold pointTuples
          simp only [hel, hptxt]
          simp
    · obtain ⟨cs, hcs, _, hsrc⟩ := collectCoords_shape _ _ _ lsFs h2 f hm'
      rw [hcs] at hpr
      have hpr' : pr ∈ cs := by simpa [geomPairs] using hpr
      obtain ⟨c, hcmem, hcp⟩ := hsrc pr hpr'
      refine ⟨c, ?_, hcp⟩
      unfold pmTuples
      exact List.mem_append.mpr (Or.inl (List.mem_append.mpr (Or.inr hcmem)))
  · obtain ⟨cs, hcs, _, hsrc⟩ := collectCoords_shape _ _ _ pgFs h3 f hm
    rw [hcs] at hpr
    have hpr' : pr ∈ cs := by simpa [geomPairs] using hpr
    obtain ⟨c, hcmem, hcp⟩ := hsrc pr hpr'
    refine ⟨c, ?_, hcp⟩
    unfold pmTuples
    exact List.mem_append.mpr (Or.inr hcmem)

/-- C4: bulk conversion of gpxDocC4 yields exactly the expected
    FeatureCollection; in general the features array of a GPX bulk
    conversion maps the extracted records in order to Point Features with
    coordinates [lon, lat], a KML bulk conversion passes the extracted
    Feature list through in order, and every KML coordinate pair stems from
    a source tuple whose first two tokens are taken in native lon, lat
    order. -/
theorem c4_bulk_conversion :
    bulkConvertGpx gpxDocC4
      = some (.dict [("type", .str "FeatureCollection"),
          ("features", .arr [.dict [("type", .str "Feature"),
            ("geometry", .dict [("type", .str "Point"),
              ("coordinates", .arr [.num 2, .num 1])]),
            ("properties", .dict [("name", .str "a.jpg")])]])])
    ∧ (∀ (g : Gpx) (v : PyVal), bulkConvertGpx g = some v →
        v.lookup "features" = some (.arr ((parse_gpx g).map gpxFeatureVal)))
    ∧ (∀ p : GeoPoint, (gpxFeatureVal p).lookup "geometry"
        = some (.dict [("type", .str "Point"),
            ("coordinates", .arr [.num p.lon, .num p.lat])]))
    ∧ (∀ (root : Xml) (fs : List Feature), parse_kml root = .ok fs → fs ≠ [] →
        bulkConvertKml root
          = .ok (some (featureCollectionVal (fs.map Feature.toVal))))
    ∧ (∀ (root : Xml) (fs : List Feature), parse_kml root = .ok fs →
        ∀ f ∈ fs, ∀ pr ∈ geomPairs f.geometry,
          ∃ c ∈ docTuples root, parseTuple c = .ok pr) := by
  refine ⟨by with_unfolding_all rfl, ?_, ?_, ?_, ?_⟩
  · intro g v h
    simp only [bulkConvertGpx] at h
    split at h
    · cases h
    · cases h
      rfl
  · intro p
    rfl
  · intro root fs h hne
    cases fs with
    | nil => exact absurd rfl hne
    | cons a as =>
      unfold bulkConvertKml
      rw [h]
      rfl
  · intro root fs h f hf pr hpr
    obtain ⟨pm, hpmmem, fs', hok, hfmem⟩ := processPlacemarks_mem _ _ h f hf
    obtain ⟨c, hcmem, hcp⟩ := processPlacemark_pairs pm fs' hok f hfmem pr hpr
    exact ⟨c, pmTuples_subset _ pm hpmmem c hcmem, hcp⟩

/-- C4 witness: the general conjuncts applied to the concrete documents
    gpxDocC4 and kmlDocA. -/
theorem c4_witness :
    PyVal.lookup
        (featureCollectionVal ((parse_gpx gpxDocC4).map gpxFeatureVal))
        "features"
      = some (.arr ((parse_gpx gpxDocC4).map gpxFeatureVal))
    ∧ bulkConvertKml kmlDocA
      = .ok (some (featureCollectionVal ([fA].map Feature.toVal))) := by
  constructor
  · exact c4_bulk_conversion.2.1 gpxDocC4 _ (by with_unfolding_all rfl)
  · exact c4_bulk_conversion.2.2.2.1 kmlDocA [fA]
      (by with_unfolding_all rfl) (by simp)
